import Mathlib

/-!
# Verification of `src/GFMM/onlineagglogfmm.py` (open-gfmm)

Shallow embedding of the `OnlineAggloGFMM` orchestrator class and of the
external collaborators it calls (online learner, agglomerative learners,
classification functions, normalizer), which live in other files of the
repository and are modelled from the specification where noted.

Numeric values are modelled as rationals (`ℚ`); numpy arrays as `List`s.
-/

namespace GFMM

/-- Clip a rational to the interval `[0,1]`. -/
def clip01 (x : ℚ) : ℚ := max 0 (min 1 x)

/-- Modelled from the spec: per-dimension membership term of §4.1
(file `GFMM/classification.py` / membership helper is not under `src/`).
Two one-sided fuzzy terms penalize the sample's upper bound exceeding the
box's upper bound and the sample's lower bound undershooting the box's
lower bound, scaled by `gamma` and clipped to `[0,1]`. -/
def memDim (gamma xl xu v w : ℚ) : ℚ :=
  min (1 - clip01 (gamma * (xu - w))) (1 - clip01 (gamma * (v - xl)))

/-- Modelled from the spec: §4.1 membership function. Per-dimension degrees
are aggregated with `oper`: `prod` multiplies them, anything else (`min`,
the default) takes the minimum. -/
def membership (gamma : ℚ) (oper : String) (xl xu v w : List ℚ) : ℚ :=
  let degs := List.zipWith (fun p q => memDim gamma p.1 p.2 q.1 q.2)
      (xl.zip xu) (v.zip w)
  if oper = "prod" then degs.foldr (· * ·) 1 else degs.foldr min 1

/-- `w - v ≤ teta` in every dimension (hyperbox size bound). -/
def fitsTeta (teta : ℚ) (v w : List ℚ) : Bool :=
  (List.zipWith (fun a b => decide (b - a ≤ teta)) v w).all id

/-- The mutable hyperbox store threaded through the online phase:
parallel lists of lower bounds, upper bounds and class labels. -/
structure OnlStore where
  V : List (List ℚ)
  W : List (List ℚ)
  classId : List ℤ
deriving Repr, DecidableEq

/-- Modelled from the spec: §4.2 step (b) — among hyperboxes whose label is
compatible with the sample (same label, or box unlabeled `0`), the index of
the box of maximum membership; ties broken toward the lowest box id. -/
def bestCandidate (gamma : ℚ) (oper : String) (xl xu : List ℚ)
    (V W : List (List ℚ)) (cls : List ℤ) (c : ℤ) : Option ℕ :=
  ((List.range cls.length).foldl (fun best i =>
    if cls.getD i 0 = c ∨ cls.getD i 0 = 0 then
      let mi := membership gamma oper xl xu (V.getD i []) (W.getD i [])
      match best with
      | none => some (i, mi)
      | some (j, mj) => if mj < mi then some (i, mi) else some (j, mj)
    else best) none).map Prod.fst

/-- Modelled from the spec: §4.2 Online Learner, one sample
(`GFMM/faster_onlinegfmm.py` is not under `src/`). Expand the best
compatible candidate when the expansion respects `teta`, otherwise create
a new hyperbox from the sample's own bounds. -/
def onlineStep (gamma teta : ℚ) (oper : String) (st : OnlStore)
    (s : List ℚ × List ℚ × ℤ) : OnlStore :=
  match bestCandidate gamma oper s.1 s.2.1 st.V st.W st.classId s.2.2 with
  | some i =>
      let v' := List.zipWith min (st.V.getD i []) s.1
      let w' := List.zipWith max (st.W.getD i []) s.2.1
      if fitsTeta teta v' w' then
        { st with V := st.V.set i v', W := st.W.set i w' }
      else
        { V := st.V ++ [s.1], W := st.W ++ [s.2.1], classId := st.classId ++ [s.2.2] }
  | none =>
      { V := st.V ++ [s.1], W := st.W ++ [s.2.1], classId := st.classId ++ [s.2.2] }

/-- Zip three sample lists into a stream of `(xl, xu, label)` samples. -/
def zip3 (Xl Xu : List (List ℚ)) (pats : List ℤ) : List (List ℚ × List ℚ × ℤ) :=
  List.zipWith (fun a p => (a, p)) Xl (List.zipWith (fun b c => (b, c)) Xu pats)

/-- Modelled from the spec: §4.2 Online Learner — one streaming pass over
the samples, mutating the store (`OnlineGFMM.fit` of
`GFMM/faster_onlinegfmm.py`, not under `src/`). -/
def onlineFit (gamma teta : ℚ) (oper : String) (Xl Xu : List (List ℚ))
    (pats : List ℤ) (st : OnlStore) : OnlStore :=
  (zip3 Xl Xu pats).foldl (onlineStep gamma teta oper) st

/-- A hyperbox of the agglomerative phase: bounds, crisp label, cardinality. -/
structure Box where
  v : List ℚ
  w : List ℚ
  cls : ℤ
  card : ℕ
deriving Repr, DecidableEq

/-- A pluggable similarity measure on two hyperboxes
`(V_a, W_a, V_b, W_b) ↦ similarity`. Modelled from the spec: the exact
`short`/`long`/`mid` blend and its `sing` tie-break are an external,
independently specified unit (spec §9, open question), so the agglomerative
learners are parameterized over it. -/
def SimFn : Type := List ℚ → List ℚ → List ℚ → List ℚ → ℚ

/-- Class-label compatibility for merging: same label, or either unlabeled. -/
def clsCompatible (a b : ℤ) : Bool := decide (a = b) || decide (a = 0) || decide (b = 0)

/-- Insert into a list kept sorted by descending key (stable). -/
def insertDesc {α : Type} (key : α → ℚ) (x : α) : List α → List α
  | [] => [x]
  | y :: ys => if key y ≤ key x then x :: y :: ys else y :: insertDesc key x ys

/-- Sort by descending key (stable insertion sort). -/
def sortDesc {α : Type} (key : α → ℚ) : List α → List α
  | [] => []
  | x :: xs => insertDesc key x (sortDesc key xs)

/-- All index pairs `i < j` over `n` boxes. -/
def allPairs (n : ℕ) : List (ℕ × ℕ) :=
  (List.range n).flatMap (fun i => ((List.range n).filter (fun j => decide (i < j))).map (fun j => (i, j)))

/-- Similarity of the pair `(i, j)` of `boxes` under `sim`. -/
def pairSim (sim : SimFn) (boxes : List Box) (p : ℕ × ℕ) : ℚ :=
  let a := boxes.getD p.1 ⟨[], [], 0, 0⟩
  let b := boxes.getD p.2 ⟨[], [], 0, 0⟩
  sim a.v a.w b.v b.w

/-- The candidate pairs of one accelerated round: label-compatible pairs,
ranked by descending similarity computed once from the round's store. -/
def roundPairs (sim : SimFn) (boxes : List Box) : List (ℕ × ℕ) :=
  sortDesc (pairSim sim boxes)
    ((allPairs boxes.length).filter (fun p =>
      clsCompatible (boxes.getD p.1 ⟨[], [], 0, 0⟩).cls (boxes.getD p.2 ⟨[], [], 0, 0⟩).cls))

/-- Merge two boxes: elementwise min/max bounds, non-unlabeled label,
summed cardinalities (spec §4.3 step 3). -/
def mergeBox (a b : Box) : Box :=
  { v := List.zipWith min a.v b.v
    w := List.zipWith max a.w b.w
    cls := if a.cls = 0 then b.cls else a.cls
    card := a.card + b.card }

/-- Modelled from the spec: §4.3 — one candidate pair of an accelerated
round. Slots holding `none` are boxes already consumed by a merge this
round; an accepted merge tombstones both operands and appends the merged
box. -/
def roundStep (teta bthres : ℚ) (sim : SimFn)
    (acc : List (Option Box) × List Box) (p : ℕ × ℕ) :
    List (Option Box) × List Box :=
  match acc.1.getD p.1 none, acc.1.getD p.2 none with
  | some a, some b =>
      if bthres ≤ sim a.v a.w b.v b.w then
        let m := mergeBox a b
        if fitsTeta teta m.v m.w then
          ((acc.1.set p.1 none).set p.2 none, acc.2 ++ [m])
        else acc
      else acc
  | _, _ => acc

/-- Modelled from the spec: §4.3 — one round of the accelerated
agglomerative learner (`AccelBatchGFMM` of `GFMM/faster_accelbatchgfmm.py`,
not under `src/`): similarity ranked once, then a single greedy pass. -/
def aggloRound (teta bthres : ℚ) (sim : SimFn) (boxes : List Box) : List Box :=
  let res := (roundPairs sim boxes).foldl (roundStep teta bthres sim) (boxes.map some, [])
  res.1.filterMap id ++ res.2

/-- Modelled from the spec: §4.3 — rounds repeat until a full round accepts
no merge (the box count stops shrinking) or fuel runs out. -/
def aggloLoop (teta bthres : ℚ) (sim : SimFn) : ℕ → List Box → List Box
  | 0, bs => bs
  | fuel + 1, bs =>
      let bs' := aggloRound teta bthres sim bs
      if bs'.length < bs.length then aggloLoop teta bthres sim fuel bs' else bs

/-- Build the initial agglomerative store from the online-phase arrays,
each box starting with cardinality 1. -/
def mkBoxes (V W : List (List ℚ)) (cls : List ℤ) : List Box :=
  List.zipWith (fun a p => { v := a, w := p.1, cls := p.2, card := 1 })
    V (List.zipWith (fun b c => (b, c)) W cls)

/-- Modelled from the spec: `AccelBatchGFMM.fit` — the accelerated
agglomerative learner applied to a store. -/
def aggloFit (teta bthres : ℚ) (sim : SimFn)
    (V W : List (List ℚ)) (cls : List ℤ) : List Box :=
  let boxes := mkBoxes V W cls
  aggloLoop teta bthres sim boxes.length boxes

/-- Modelled from the spec: one full-batch step (`BatchGFMMV1` of
`GFMM/batchgfmm.py`, not under `src/`): take the single best admissible
pair (similarity re-ranked after every merge) and merge it. -/
def batchStep (teta bthres : ℚ) (sim : SimFn) (bs : List Box) : List Box :=
  let adm := (roundPairs sim bs).filter (fun p =>
    let a := bs.getD p.1 ⟨[], [], 0, 0⟩
    let b := bs.getD p.2 ⟨[], [], 0, 0⟩
    decide (bthres ≤ sim a.v a.w b.v b.w) &&
      fitsTeta teta (mergeBox a b).v (mergeBox a b).w)
  match adm with
  | [] => bs
  | p :: _ =>
      let a := bs.getD p.1 ⟨[], [], 0, 0⟩
      let b := bs.getD p.2 ⟨[], [], 0, 0⟩
      ((bs.eraseIdx p.2).eraseIdx p.1) ++ [mergeBox a b]

/-- Modelled from the spec: full-batch merging loop, one merge per
iteration, until no admissible pair remains or fuel runs out. -/
def batchLoop (teta bthres : ℚ) (sim : SimFn) : ℕ → List Box → List Box
  | 0, bs => bs
  | fuel + 1, bs =>
      let bs' := batchStep teta bthres sim bs
      if bs'.length < bs.length then batchLoop teta bthres sim fuel bs' else bs

/-- Modelled from the spec: `BatchGFMMV1.fit` — the full-batch (slower
family) agglomerative learner applied to a store. -/
def batchV1Fit (teta bthres : ℚ) (sim : SimFn)
    (V W : List (List ℚ)) (cls : List ℤ) : List Box :=
  let boxes := mkBoxes V W cls
  batchLoop teta bthres sim boxes.length boxes

/-- The `OnlineAggloGFMM` model object: immutable configuration set by the
constructor, plus the mutable trained state (`V`, `W`, `classId`, `cardin`,
the recorded normalization statistics `mins`/`maxs`, the two hyperbox-count
snapshots, the elapsed-time record and `predicted_class`).
`elapsed_time_recorded` models the wall-clock measurement of
`self.elapsed_training_time` (the numeric value is external real time and
only its being recorded is observable in the embedding).
`predicted_class` is `none` until `predict` first assigns it. -/
structure OnlineAggloGFMM where
  gamma : ℚ
  teta_onl : ℚ
  teta_agglo : ℚ
  bthres : ℚ
  simil : String
  sing : String
  isDraw : Bool
  oper : String
  isNorm : Bool
  loLim : ℚ
  hiLim : ℚ
  V : List (List ℚ)
  W : List (List ℚ)
  classId : List ℤ
  cardin : List ℕ
  mins : List ℚ
  maxs : List ℚ
  num_hyperbox_after_online : ℕ
  num_hyperbox_after_agglo : ℕ
  elapsed_time_recorded : Bool
  predicted_class : Option (List ℤ)
deriving Repr, DecidableEq

/-- The constructor `OnlineAggloGFMM.__init__` (lines 58–70 of
`src/GFMM/onlineagglogfmm.py`): stores the configuration, installs the
pre-existing store `V_pre`/`W_pre`/`classId_pre` as `V`/`W`/`classId`,
and (via `BaseBatchLearningGFMM.__init__`, modelled from the spec) the
normalization target range `[loLim, hiLim]` with empty `mins`/`maxs`. -/
def mkOnlineAggloGFMM (gamma teta_onl teta_agglo bthres : ℚ)
    (simil sing : String) (isDraw : Bool) (oper : String) (isNorm : Bool)
    (loLim hiLim : ℚ) (V_pre W_pre : List (List ℚ)) (classId_pre : List ℤ) :
    OnlineAggloGFMM :=
  { gamma := gamma, teta_onl := teta_onl, teta_agglo := teta_agglo
    bthres := bthres, simil := simil, sing := sing, isDraw := isDraw
    oper := oper, isNorm := isNorm, loLim := loLim, hiLim := hiLim
    V := V_pre, W := W_pre, classId := classId_pre
    cardin := [], mins := [], maxs := []
    num_hyperbox_after_online := 0, num_hyperbox_after_agglo := 0
    elapsed_time_recorded := false, predicted_class := none }

/-- Minimum of a list of rationals with a default for the empty list. -/
def listMinD (d : ℚ) : List ℚ → ℚ
  | [] => d
  | a :: rest => rest.foldl min a

/-- Maximum of a list of rationals with a default for the empty list. -/
def listMaxD (d : ℚ) : List ℚ → ℚ
  | [] => d
  | a :: rest => rest.foldl max a

/-- Column `d` of a matrix. -/
def colOf (X : List (List ℚ)) (d : ℕ) : List ℚ := X.map (fun r => r.getD d 0)

/-- One linearly rescaled value:
`lo + (hi - lo) * (x - mn) / (mx - mn)`. -/
def normVal (lo hi mn mx x : ℚ) : ℚ := lo + (hi - lo) * (x - mn) / (mx - mn)

/-- Rescale one row against per-dimension `mins`/`maxs`. -/
def normRow (lo hi : ℚ) (mins maxs row : List ℚ) : List ℚ :=
  List.zipWith (fun x p => normVal lo hi p.1 p.2 x) row
    (List.zipWith (fun a b => (a, b)) mins maxs)

/-- Modelled from the spec: the external Normalizer
(`BaseBatchLearningGFMM.dataPreprocessing`, not under `src/`): computes the
per-dimension min/max over both bound matrices, rescales both matrices to
`[lo, hi]`, and returns the rescaled bounds together with the min/max used
so the same transform can be replayed on test data. -/
def dataPreprocessing (lo hi : ℚ) (Xl Xu : List (List ℚ)) :
    List (List ℚ) × List (List ℚ) × List ℚ × List ℚ :=
  let dims := (Xl.headD []).length
  let mins := (List.range dims).map (fun d => listMinD 0 (colOf Xl d ++ colOf Xu d))
  let maxs := (List.range dims).map (fun d => listMaxD 0 (colOf Xl d ++ colOf Xu d))
  (Xl.map (normRow lo hi mins maxs), Xu.map (normRow lo hi mins maxs), mins, maxs)

/-- Write the agglomerative phase's output boxes back into the model and
record the post-agglomeration snapshot and the elapsed-time measurement
(`fit`, lines 106–116). -/
def finishFit (m : OnlineAggloGFMM) (boxes : List Box) : OnlineAggloGFMM :=
  { m with
    V := boxes.map Box.v
    W := boxes.map Box.w
    classId := boxes.map Box.cls
    cardin := boxes.map Box.card
    num_hyperbox_after_agglo := (boxes.map Box.cls).length
    elapsed_time_recorded := true }

/-- Error raised on the `typeOfAgglo == 2` branch (line 102):
`BatchGFMMV2` is referenced but never imported (imports, lines 49–54). -/
def batchV2NameError : String := "NameError: name BatchGFMMV2 is not defined"

/-- Error for mismatched input row counts. -/
def shapeError : String :=
  "ValueError: X_l, X_u and patClassId must have the same number of rows"

/-- `OnlineAggloGFMM.fit` (lines 73–118): optional normalization, online
phase, post-online snapshot, agglomerative phase selected by
`typeOfAgglo`, post-agglomeration snapshot, elapsed time, return self.
The input-shape validation is modelled from the spec (§7: shape errors
must fail fast before training starts; the orchestrator under `src/` shows
no check and the external learners are not under `src/`). The
`typeOfAgglo = 2` branch raises `NameError` because `BatchGFMMV2` is never
imported. The similarity measure `sim` is the external pluggable unit the
agglomerative learners consume (selected by `simil`/`sing`). -/
def fitE (m : OnlineAggloGFMM) (sim : SimFn) (X_l X_u : List (List ℚ))
    (patClassId : List ℤ) (typeOfAgglo : ℤ) : Except String OnlineAggloGFMM :=
  if X_l.length = X_u.length ∧ X_l.length = patClassId.length then
    let pre :=
      if m.isNorm then dataPreprocessing m.loLim m.hiLim X_l X_u
      else (X_l, X_u, m.mins, m.maxs)
    let st := onlineFit m.gamma m.teta_onl m.oper pre.1 pre.2.1 patClassId
      ⟨m.V, m.W, m.classId⟩
    let m1 := { m with
      V := st.V
      W := st.W
      classId := st.classId
      mins := pre.2.2.1
      maxs := pre.2.2.2
      num_hyperbox_after_online := st.classId.length }
    if typeOfAgglo = 1 then
      Except.ok (finishFit m1 (aggloFit m1.teta_agglo m1.bthres sim m1.V m1.W m1.classId))
    else if typeOfAgglo = 2 then
      Except.error batchV2NameError
    else
      Except.ok (finishFit m1 (batchV1Fit m1.teta_agglo m1.bthres sim m1.V m1.W m1.classId))
  else Except.error shapeError

/-- Membership of a sample in the hyperbox at index `i` of the trained
arrays (classification always aggregates with `min` in
`GFMM/classification.py`, modelled from the spec). -/
def classMem (gamma : ℚ) (V W : List (List ℚ)) (xl xu : List ℚ) (i : ℕ) : ℚ :=
  membership gamma "min" xl xu (V.getD i []) (W.getD i [])

/-- The indices of the hyperboxes carrying class label `c`. -/
def classIdx (cls : List ℤ) (c : ℤ) : List ℕ :=
  (List.range cls.length).filter (fun i => decide (cls.getD i 0 = c))

/-- Modelled from the spec: §4.5 step 3 — a class's soft score is the
maximum membership degree among the hyperboxes of that class. -/
def classScore (gamma : ℚ) (V W : List (List ℚ)) (cls : List ℤ)
    (xl xu : List ℚ) (c : ℤ) : ℚ :=
  listMaxD 0 ((classIdx cls c).map (classMem gamma V W xl xu))

/-- Modelled from the spec: the cardinality of a class's best-matching
hyperbox — the largest cardinality among the boxes of class `c` that
attain the class's maximal membership for this sample. -/
def classBestCard (gamma : ℚ) (V W : List (List ℚ)) (cls : List ℤ)
    (card : List ℕ) (xl xu : List ℚ) (c : ℤ) : ℕ :=
  (((classIdx cls c).filter (fun i =>
      decide (classMem gamma V W xl xu i = classScore gamma V W cls xl xu c))).map
    (fun i => card.getD i 0)).foldl max 0

/-- The classes attaining the maximal per-class soft score for a sample,
in the order the distinct class labels occur in the store. -/
def winningClasses (gamma : ℚ) (V W : List (List ℚ)) (cls : List ℤ)
    (xl xu : List ℚ) : List ℤ :=
  let classes := cls.dedup
  let best := listMaxD 0 (classes.map (classScore gamma V W cls xl xu))
  classes.filter (fun c => decide (classScore gamma V W cls xl xu c = best))

/-- Modelled from the spec: the plain (non-cardinality) single-sample rule
of `GFMM/classification.py`'s `predict` — the first maximal-score class is
predicted; the sample is ambiguous when the maximal score is attained by
more than one class. -/
def predictOnePlain (gamma : ℚ) (V W : List (List ℚ)) (cls : List ℤ)
    (xl xu : List ℚ) : ℤ × Bool :=
  let win := winningClasses gamma V W cls xl xu
  (win.headD 0, decide (1 < win.length))

/-- Modelled from the spec: the cardinality-aware ("v2") single-sample rule
of `GFMM/classification.py`'s `predict_with_probability` — among the
maximal-score classes, prefer the one whose best-matching hyperbox has the
larger cardinality (first such class on cardinality ties). -/
def predictOneProb (gamma : ℚ) (V W : List (List ℚ)) (cls : List ℤ)
    (card : List ℕ) (xl xu : List ℚ) : ℤ :=
  let win := winningClasses gamma V W cls xl xu
  (win.foldl (fun best c =>
    match best with
    | none => some c
    | some b =>
        if classBestCard gamma V W cls card xl xu b <
            classBestCard gamma V W cls card xl xu c
        then some c else some b) none).getD 0

/-- The result object of the classification functions (a `Bunch` in the
source): predicted labels, misclassification count and map, ambiguity
count (`predict` docstring, lines 133–139). -/
structure PredictResult where
  predicted_class : List ℤ
  summis : ℕ
  misclass : List Bool
  sumamb : ℕ
deriving Repr, DecidableEq

/-- Misclassification statistics shared by both classification rules:
sample `i` is wrong when its predicted label differs from the `i`-th test
label. -/
def mkResult (preds : List (ℤ × Bool)) (patTest : List ℤ) : PredictResult :=
  let mis := (List.range preds.length).map
    (fun i => decide ((preds.getD i (0, false)).1 ≠ patTest.getD i 0))
  { predicted_class := preds.map Prod.fst
    summis := mis.count true
    misclass := mis
    sumamb := (preds.map Prod.snd).count true }

/-- Modelled from the spec: `GFMM.classification.predict` (not under
`src/`), the plain max-membership classifier over all kept test samples. -/
def predictPlainFn (V W : List (List ℚ)) (cls : List ℤ)
    (XlT XuT : List (List ℚ)) (patTest : List ℤ) (gamma : ℚ) : PredictResult :=
  mkResult ((XlT.zip XuT).map (fun s => predictOnePlain gamma V W cls s.1 s.2))
    patTest

/-- Modelled from the spec: `GFMM.classification.predict_with_probability`
(not under `src/`), the cardinality-aware classifier over all kept test
samples; a sample counts as ambiguous only when the scores tie and the
cardinalities cannot separate the winners. -/
def predict_with_probability (V W : List (List ℚ)) (cls : List ℤ) (card : List ℕ)
    (XlT XuT : List (List ℚ)) (patTest : List ℤ) (gamma : ℚ) : PredictResult :=
  mkResult ((XlT.zip XuT).map (fun s =>
    let win := winningClasses gamma V W cls s.1 s.2
    (predictOneProb gamma V W cls card s.1 s.2,
     decide (1 < win.length) &&
       decide ((win.map (classBestCard gamma V W cls card s.1 s.2)).dedup.length ≤ 1))))
    patTest

/-- `np.ones((n,1)) * row`: the row broadcast to `n` identical rows
(lines 145–146). -/
def matOnesMul (n : ℕ) (row : List ℚ) : List (List ℚ) := List.replicate n row

/-- Elementwise matrix subtraction. -/
def matSub (A B : List (List ℚ)) : List (List ℚ) :=
  List.zipWith (List.zipWith (· - ·)) A B

/-- Elementwise matrix division. -/
def matDivM (A B : List (List ℚ)) : List (List ℚ) :=
  List.zipWith (List.zipWith (· / ·)) A B

/-- Scalar times matrix, elementwise. -/
def matScale (k : ℚ) (A : List (List ℚ)) : List (List ℚ) :=
  A.map (List.map (fun x => k * x))

/-- Scalar plus matrix, elementwise. -/
def matAddC (c : ℚ) (A : List (List ℚ)) : List (List ℚ) :=
  A.map (List.map (fun x => c + x))

/-- The test-time renormalization of lines 145–146:
`loLim + (hiLim - loLim) * (X - ones*mins) / (ones*(maxs - mins))`,
with the numpy broadcasts made explicit. -/
def normTestMat (lo hi : ℚ) (mins maxs : List ℚ) (X : List (List ℚ)) :
    List (List ℚ) :=
  matAddC lo
    (matDivM (matScale (hi - lo) (matSub X (matOnesMul X.length mins)))
      (matOnesMul X.length (List.zipWith (· - ·) maxs mins)))

/-- A row lies inside `[lo, hi]` in every dimension. -/
def rowInRange (lo hi : ℚ) (row : List ℚ) : Bool :=
  row.all (fun x => decide (lo ≤ x) && decide (x ≤ hi))

/-- The global out-of-range test of line 148: some entry of either matrix
lies below `loLim` or above `hiLim`. -/
def outOfRange (lo hi : ℚ) (A B : List (List ℚ)) : Bool :=
  (A.flatten ++ B.flatten).any (fun x => decide (x < lo) || decide (hi < x))

/-- Select the rows of `A` at the given indices (`X[indKeep, :]`). -/
def selRows (A : List (List ℚ)) (idx : List ℕ) : List (List ℚ) :=
  idx.filterMap (fun i => A[i]?)

/-- The kept-row indices of lines 153–155: `np.where` of the rows of the
normalized lower bounds lying fully inside `[lo, hi]`, intersected
(`np.intersect1d`) with the same for the upper bounds. -/
def indKeep (lo hi : ℚ) (Xl Xu : List (List ℚ)) : List ℕ :=
  ((List.range Xl.length).filter (fun i => rowInRange lo hi (Xl.getD i []))).inter
    ((List.range Xl.length).filter (fun i => rowInRange lo hi (Xu.getD i [])))

/-- The renormalize-and-filter preamble of `predict` (lines 143–161):
when the model recorded normalization statistics, replay the training
transform on both test matrices; if any value falls outside
`[loLim, hiLim]`, print the notice with the original sample count, keep
only the fully in-range rows and print the kept count. The returned
`Option (ℕ × ℕ)` models the console notice as `(original, kept)`. -/
def predictFilter (m : OnlineAggloGFMM) (XlT XuT : List (List ℚ)) :
    List (List ℚ) × List (List ℚ) × Option (ℕ × ℕ) :=
  if m.mins ≠ [] then
    let Xl := normTestMat m.loLim m.hiLim m.mins m.maxs XlT
    let Xu := normTestMat m.loLim m.hiLim m.mins m.maxs XuT
    if outOfRange m.loLim m.hiLim Xl Xu then
      let keep := indKeep m.loLim m.hiLim Xl Xu
      (selRows Xl keep, selRows Xu keep, some (XlT.length, (selRows Xl keep).length))
    else (Xl, Xu, none)
  else (XlT, XuT, none)

/-- `OnlineAggloGFMM.predict` (lines 120–174): renormalize/filter, then
classify the remaining samples with `predict_with_probability` when
`newVer` is true and the plain `predict` otherwise, assigning
`predicted_class`; when no sample remains the result stays `None` and the
model is untouched. Returns the updated model, the modelled console
notice, and the result object. -/
def predictE (m : OnlineAggloGFMM) (XlT XuT : List (List ℚ))
    (patClassIdTest : List ℤ) (newVer : Bool) :
    OnlineAggloGFMM × Option (ℕ × ℕ) × Option PredictResult :=
  let f := predictFilter m XlT XuT
  if 0 < f.1.length then
    let r :=
      if newVer then
        predict_with_probability m.V m.W m.classId m.cardin f.1 f.2.1
          patClassIdTest m.gamma
      else predictPlainFn m.V m.W m.classId f.1 f.2.1 patClassIdTest m.gamma
    ({ m with predicted_class := some r.predicted_class }, f.2.2, some r)
  else (m, f.2.2, none)

/-! ## Concrete instances used by witnesses and counterexamples -/

/-- A trivial similarity measure (constantly 1), a valid instance of the
pluggable similarity unit. -/
def simOne : SimFn := fun _ _ _ _ => 1

/-- A model constructed without input normalization. -/
def Mplain : OnlineAggloGFMM :=
  mkOnlineAggloGFMM 1 1 1 (1/2) "mid" "max" false "min" false 0 1 [] [] []

/-- A model constructed with input normalization to `[0, 1]`. -/
def Mnorm : OnlineAggloGFMM :=
  mkOnlineAggloGFMM 1 1 1 (1/2) "mid" "max" false "min" true 0 1 [] [] []

/-- A trained model whose training inputs were normalized (non-empty
recorded `mins`/`maxs`), holding one unit hyperbox of class 1. -/
def Mtest : OnlineAggloGFMM :=
  { Mplain with
    V := [[0]]
    W := [[1]]
    classId := [1]
    cardin := [1]
    mins := [0]
    maxs := [1] }

/-! ## Store-size lemmas for the agglomerative loops -/

/-- The accelerated agglomerative loop never grows the store. -/
theorem aggloLoop_length_le (teta bthres : ℚ) (sim : SimFn) :
    ∀ (fuel : ℕ) (bs : List Box),
      (aggloLoop teta bthres sim fuel bs).length ≤ bs.length := by
  intro fuel
  induction fuel with
  | zero => intro bs; exact le_refl _
  | succ n ih =>
      intro bs
      unfold aggloLoop
      by_cases h : (aggloRound teta bthres sim bs).length < bs.length
      · simpa [h] using le_trans (ih _) (le_of_lt h)
      · simp [h]

/-- The full-batch agglomerative loop never grows the store. -/
theorem batchLoop_length_le (teta bthres : ℚ) (sim : SimFn) :
    ∀ (fuel : ℕ) (bs : List Box),
      (batchLoop teta bthres sim fuel bs).length ≤ bs.length := by
  intro fuel
  induction fuel with
  | zero => intro bs; exact le_refl _
  | succ n ih =>
      intro bs
      unfold batchLoop
      by_cases h : (batchStep teta bthres sim bs).length < bs.length
      · simpa [h] using le_trans (ih _) (le_of_lt h)
      · simp [h]

/-- The initial agglomerative store has at most as many boxes as the
online phase produced class labels. -/
theorem mkBoxes_length_le (V W : List (List ℚ)) (cls : List ℤ) :
    (mkBoxes V W cls).length ≤ cls.length := by
  simp only [mkBoxes, List.length_zipWith]
  omega

/-- The accelerated agglomerative learner outputs at most as many boxes as
the store it is given. -/
theorem aggloFit_length_le (teta bthres : ℚ) (sim : SimFn)
    (V W : List (List ℚ)) (cls : List ℤ) :
    (aggloFit teta bthres sim V W cls).length ≤ cls.length :=
  le_trans (aggloLoop_length_le teta bthres sim _ _) (mkBoxes_length_le V W cls)

/-- The full-batch agglomerative learner outputs at most as many boxes as
the store it is given. -/
theorem batchV1Fit_length_le (teta bthres : ℚ) (sim : SimFn)
    (V W : List (List ℚ)) (cls : List ℤ) :
    (batchV1Fit teta bthres sim V W cls).length ≤ cls.length :=
  le_trans (batchLoop_length_le teta bthres sim _ _) (mkBoxes_length_le V W cls)

/-! ## Claim C5 -/

/-- Claim C5: for every training run of `fit` that returns a model, the
hyperbox count recorded after the agglomerative phase is at most the count
recorded after the online phase — agglomeration never adds a net box. -/
theorem C5_monotonic_compression (m : OnlineAggloGFMM) (sim : SimFn)
    (Xl Xu : List (List ℚ)) (pats : List ℤ) (t : ℤ) (m' : OnlineAggloGFMM)
    (h : fitE m sim Xl Xu pats t = Except.ok m') :
    m'.num_hyperbox_after_agglo ≤ m'.num_hyperbox_after_online := by
  by_cases hsh : Xl.length = Xu.length ∧ Xl.length = pats.length
  · by_cases h1 : t = 1
    · simp only [fitE, eq_true hsh, if_true, eq_true h1] at h
      rw [Except.ok.injEq] at h
      subst h
      simpa [finishFit] using aggloFit_length_le _ _ sim _ _ _
    · by_cases h2 : t = 2
      · simp only [fitE, eq_true hsh, if_true, eq_false h1, if_false, eq_true h2] at h
        exact absurd h (by simp)
      · simp only [fitE, eq_true hsh, if_true, eq_false h1, if_false, eq_false h2] at h
        rw [Except.ok.injEq] at h
        subst h
        simpa [finishFit] using batchV1Fit_length_le _ _ sim _ _ _
  · simp [fitE, hsh] at h

/-- Witness for C5 at a concrete two-sample training run. -/
theorem C5_witness :
    ((fitE Mplain simOne [[0], [1]] [[0], [1]] [1, 1] 1).toOption.map
        OnlineAggloGFMM.num_hyperbox_after_agglo).getD 99 ≤
      ((fitE Mplain simOne [[0], [1]] [[0], [1]] [1, 1] 1).toOption.map
        OnlineAggloGFMM.num_hyperbox_after_online).getD 0 := by
  cases hE : fitE Mplain simOne [[0], [1]] [[0], [1]] [1, 1] 1 with
  | error e =>
      have hok : (fitE Mplain simOne [[0], [1]] [[0], [1]] [1, 1] 1).toOption.isSome = true := by
        decide
      rw [hE] at hok
      simp [Except.toOption] at hok
  | ok m' =>
      simpa [Except.toOption] using
        C5_monotonic_compression Mplain simOne [[0], [1]] [[0], [1]] [1, 1] 1 m' hE

/-! ## Claim C2 -/

/-- Claim C2 (code bug): calling `fit` with `typeOfAgglo = 2` does not run
the full-batch slower variant — it raises `NameError`, because line 102
references `BatchGFMMV2` while the imports (lines 49–54) never import it.
Evaluated here at a concrete two-sample training input on which variants 1
and 3 complete normally. -/
theorem C2_variant2_name_error :
    fitE Mplain simOne [[0], [1]] [[0], [1]] [1, 2] 2 = Except.error batchV2NameError ∧
      (fitE Mplain simOne [[0], [1]] [[0], [1]] [1, 2] 1).toOption.isSome = true ∧
      (fitE Mplain simOne [[0], [1]] [[0], [1]] [1, 2] 3).toOption.isSome = true := by
  refine ⟨rfl, by decide, by decide⟩

/-! ## Claim C8 -/

/-- Claim C8: a `fit` call whose lower-bound matrix, upper-bound matrix and
label vector have mismatched row counts fails fast with a descriptive
error and produces no partially trained store (the error result carries no
model). The shape validation is modelled from the spec (§7): it lives in
the external learner code, not in the orchestrator under `src/`. -/
theorem C8_shape_mismatch_fails_fast (m : OnlineAggloGFMM) (sim : SimFn)
    (Xl Xu : List (List ℚ)) (pats : List ℤ) (t : ℤ)
    (h : ¬(Xl.length = Xu.length ∧ Xl.length = pats.length)) :
    fitE m sim Xl Xu pats t = Except.error shapeError := by
  simp [fitE, h]

/-- Witness for C8: two lower-bound rows against one upper-bound row. -/
theorem C8_witness :
    fitE Mplain simOne [[0], [1]] [[0]] [1, 1] 1 = Except.error shapeError := by
  refine C8_shape_mismatch_fails_fast Mplain simOne [[0], [1]] [[0]] [1, 1] 1 ?_
  decide

/-! ## The phases of `fit`, named for the orchestration claims -/

/-- The preprocessing phase of `fit` (lines 83–84): the normalized bound
matrices plus recorded `mins`/`maxs` when `isNorm` is set, the raw inputs
and the previously stored statistics otherwise. -/
def fitPre (m : OnlineAggloGFMM) (Xl Xu : List (List ℚ)) :
    List (List ℚ) × List (List ℚ) × List ℚ × List ℚ :=
  if m.isNorm then dataPreprocessing m.loLim m.hiLim Xl Xu
  else (Xl, Xu, m.mins, m.maxs)

/-- The online phase of `fit` (lines 88–90): the online learner applied to
the (possibly normalized) inputs, starting from the store currently held
by the model. -/
def fitOnline (m : OnlineAggloGFMM) (Xl Xu : List (List ℚ)) (pats : List ℤ) :
    OnlStore :=
  onlineFit m.gamma m.teta_onl m.oper (fitPre m Xl Xu).1 (fitPre m Xl Xu).2.1
    pats ⟨m.V, m.W, m.classId⟩

/-- The model state between the online and the agglomerative phase
(lines 92–96): store replaced by the online learner's output, recorded
normalization statistics, and the post-online hyperbox-count snapshot. -/
def postOnlineM (m : OnlineAggloGFMM) (Xl Xu : List (List ℚ)) (pats : List ℤ) :
    OnlineAggloGFMM :=
  { m with
    V := (fitOnline m Xl Xu pats).V
    W := (fitOnline m Xl Xu pats).W
    classId := (fitOnline m Xl Xu pats).classId
    mins := (fitPre m Xl Xu).2.2.1
    maxs := (fitPre m Xl Xu).2.2.2
    num_hyperbox_after_online := (fitOnline m Xl Xu pats).classId.length }

/-- The agglomerative phase of `fit` for the selectors that do not raise
(lines 99–106): the accelerated learner for selector 1, the full-batch
`BatchGFMMV1` for every selector other than 1 and 2. -/
def fitAgglo (m : OnlineAggloGFMM) (sim : SimFn) (t : ℤ) (st : OnlStore) :
    List Box :=
  if t = 1 then aggloFit m.teta_agglo m.bthres sim st.V st.W st.classId
  else batchV1Fit m.teta_agglo m.bthres sim st.V st.W st.classId

/-- `fit` on well-shaped input and a selector other than 2 returns the
composition of its phases. -/
theorem fitE_ok (m : OnlineAggloGFMM) (sim : SimFn) (Xl Xu : List (List ℚ))
    (pats : List ℤ) (t : ℤ)
    (hsh : Xl.length = Xu.length ∧ Xl.length = pats.length) (ht : t ≠ 2) :
    fitE m sim Xl Xu pats t =
      Except.ok (finishFit (postOnlineM m Xl Xu pats)
        (fitAgglo m sim t (fitOnline m Xl Xu pats))) := by
  by_cases h1 : t = 1
  · subst h1
    simp only [fitE, fitAgglo, postOnlineM, fitOnline, fitPre, eq_true hsh, if_true]
  · by_cases h2 : t = 2
    · exact absurd h2 ht
    · simp only [fitE, fitAgglo, postOnlineM, fitOnline, fitPre, eq_true hsh,
        if_true, eq_false h1, if_false, eq_false h2]

/-- Whenever `fit` returns a model, that model is the composition of the
phases of `fitE_ok`. -/
theorem fitE_ok_inv (m : OnlineAggloGFMM) (sim : SimFn) (Xl Xu : List (List ℚ))
    (pats : List ℤ) (t : ℤ) (m' : OnlineAggloGFMM)
    (h : fitE m sim Xl Xu pats t = Except.ok m') :
    m' = finishFit (postOnlineM m Xl Xu pats)
      (fitAgglo m sim t (fitOnline m Xl Xu pats)) := by
  by_cases hsh : Xl.length = Xu.length ∧ Xl.length = pats.length
  · by_cases h2 : t = 2
    · subst h2
      simp only [fitE, eq_true hsh, if_true] at h
      norm_num at h
      exact Except.noConfusion h
    · rw [fitE_ok m sim Xl Xu pats t hsh h2] at h
      exact (Except.ok.inj h).symm
  · simp [fitE, hsh] at h

/-! ## Claim C1 -/

/-- Claim C1 (counterexample): with the agglomerative-variant selector 2,
`fit` does not return a trained model — it raises `NameError` (the class
`BatchGFMMV2` used at line 102 is never imported), so the claim does not
hold for every selector. -/
theorem C1_counterexample :
    fitE Mplain simOne [[0]] [[0]] [1] 2 = Except.error batchV2NameError := rfl

/-- Claim C1 (amended to the selectors other than 2): `fit` normalizes the
inputs when `isNorm` is set, runs the online learner on the model's store,
records `num_hyperbox_after_online` as that store's box count, runs the
selected agglomerative learner on that same store, stores its output boxes
as the final `V`, `W`, `classId`, `cardin`, records
`num_hyperbox_after_agglo` as the resulting box count, records the elapsed
training time, and returns the trained model. -/
theorem C1_fit_pipeline (m : OnlineAggloGFMM) (sim : SimFn)
    (Xl Xu : List (List ℚ)) (pats : List ℤ) (t : ℤ)
    (hsh : Xl.length = Xu.length ∧ Xl.length = pats.length) (ht : t ≠ 2) :
    ∃ m', fitE m sim Xl Xu pats t = Except.ok m' ∧
      m'.mins = (fitPre m Xl Xu).2.2.1 ∧
      m'.maxs = (fitPre m Xl Xu).2.2.2 ∧
      m'.num_hyperbox_after_online = (fitOnline m Xl Xu pats).classId.length ∧
      m'.V = (fitAgglo m sim t (fitOnline m Xl Xu pats)).map Box.v ∧
      m'.W = (fitAgglo m sim t (fitOnline m Xl Xu pats)).map Box.w ∧
      m'.classId = (fitAgglo m sim t (fitOnline m Xl Xu pats)).map Box.cls ∧
      m'.cardin = (fitAgglo m sim t (fitOnline m Xl Xu pats)).map Box.card ∧
      m'.num_hyperbox_after_agglo = (fitAgglo m sim t (fitOnline m Xl Xu pats)).length ∧
      m'.elapsed_time_recorded = true := by
  refine ⟨_, fitE_ok m sim Xl Xu pats t hsh ht,
    rfl, rfl, rfl, rfl, rfl, rfl, rfl, ?_, rfl⟩
  simp [finishFit]

/-- Witness for C1 at a concrete two-sample run with selector 3. -/
theorem C1_witness :
    (fitE Mplain simOne [[0], [1]] [[0], [1]] [1, 2] 3).toOption.isSome = true := by
  obtain ⟨m', hE, -⟩ :=
    C1_fit_pipeline Mplain simOne [[0], [1]] [[0], [1]] [1, 2] 3 (by decide) (by decide)
  rw [hE]
  rfl

/-! ## Claim C7 -/

/-- Claim C7: the constructor installs `V_pre`/`W_pre`/`classId_pre` as the
initial hyperbox store, and `fit` hands exactly that pre-seeded store
`⟨V_pre, W_pre, classId_pre⟩` to the online learner, so a previously
trained model absorbs new data instead of training from an empty store. -/
theorem C7_preseeded_store (gamma teta_onl teta_agglo bthres : ℚ)
    (simil sing : String) (isDraw : Bool) (oper : String) (isNorm : Bool)
    (loLim hiLim : ℚ) (Vp Wp : List (List ℚ)) (Cp : List ℤ) (sim : SimFn)
    (Xl Xu : List (List ℚ)) (pats : List ℤ) (t : ℤ)
    (hsh : Xl.length = Xu.length ∧ Xl.length = pats.length) (ht : t ≠ 2) :
    (mkOnlineAggloGFMM gamma teta_onl teta_agglo bthres simil sing isDraw
      oper isNorm loLim hiLim Vp Wp Cp).V = Vp ∧
    (mkOnlineAggloGFMM gamma teta_onl teta_agglo bthres simil sing isDraw
      oper isNorm loLim hiLim Vp Wp Cp).W = Wp ∧
    (mkOnlineAggloGFMM gamma teta_onl teta_agglo bthres simil sing isDraw
      oper isNorm loLim hiLim Vp Wp Cp).classId = Cp ∧
    ∃ m', fitE (mkOnlineAggloGFMM gamma teta_onl teta_agglo bthres simil sing
        isDraw oper isNorm loLim hiLim Vp Wp Cp) sim Xl Xu pats t = Except.ok m' ∧
      m'.num_hyperbox_after_online =
        (onlineFit gamma teta_onl oper
          (fitPre (mkOnlineAggloGFMM gamma teta_onl teta_agglo bthres simil sing
            isDraw oper isNorm loLim hiLim Vp Wp Cp) Xl Xu).1
          (fitPre (mkOnlineAggloGFMM gamma teta_onl teta_agglo bthres simil sing
            isDraw oper isNorm loLim hiLim Vp Wp Cp) Xl Xu).2.1
          pats ⟨Vp, Wp, Cp⟩).classId.length :=
  ⟨rfl, rfl, rfl, _,
    fitE_ok (mkOnlineAggloGFMM gamma teta_onl teta_agglo bthres simil sing
      isDraw oper isNorm loLim hiLim Vp Wp Cp) sim Xl Xu pats t hsh ht, rfl⟩

/-- Witness for C7: a pre-seeded one-box store absorbing one new sample. -/
theorem C7_witness :
    (mkOnlineAggloGFMM 1 1 1 (1/2) "mid" "max" false "min" false 0 1
      [[0]] [[1/2]] [1]).V = [[0]] ∧
    (mkOnlineAggloGFMM 1 1 1 (1/2) "mid" "max" false "min" false 0 1
      [[0]] [[1/2]] [1]).W = [[1/2]] ∧
    (mkOnlineAggloGFMM 1 1 1 (1/2) "mid" "max" false "min" false 0 1
      [[0]] [[1/2]] [1]).classId = [1] ∧
    ((fitE (mkOnlineAggloGFMM 1 1 1 (1/2) "mid" "max" false "min" false 0 1
        [[0]] [[1/2]] [1]) simOne [[(3:ℚ)/4]] [[(3:ℚ)/4]] [2] 1).toOption.map
      OnlineAggloGFMM.num_hyperbox_after_online) =
      some ((onlineFit 1 1 "min"
        (fitPre (mkOnlineAggloGFMM 1 1 1 (1/2) "mid" "max" false "min" false 0 1
          [[0]] [[1/2]] [1]) [[(3:ℚ)/4]] [[(3:ℚ)/4]]).1
        (fitPre (mkOnlineAggloGFMM 1 1 1 (1/2) "mid" "max" false "min" false 0 1
          [[0]] [[1/2]] [1]) [[(3:ℚ)/4]] [[(3:ℚ)/4]]).2.1
        [2] ⟨[[0]], [[1/2]], [1]⟩).classId.length) := by
  obtain ⟨h1, h2, h3, m', hE, hnum⟩ :=
    C7_preseeded_store 1 1 1 (1/2) "mid" "max" false "min" false 0 1
      [[0]] [[1/2]] [1] simOne [[(3:ℚ)/4]] [[(3:ℚ)/4]] [2] 1
      (by decide) (by decide)
  refine ⟨h1, h2, h3, ?_⟩
  rw [hE]
  simp [Except.toOption, hnum]

/-! ## Claim C9 -/

/-- Claim C9 (counterexample): `fit` on a normalizing model also writes the
recorded normalization statistics `mins`/`maxs`, which the claim's list of
written fields omits — here `mins` changes from `[]` to `[0]`. -/
theorem C9_counterexample :
    (fitE Mnorm simOne [[0], [1]] [[0], [1]] [1, 1] 1).toOption.map
        OnlineAggloGFMM.mins = some [0] ∧
      Mnorm.mins = [] := by
  constructor
  · with_unfolding_all rfl
  · rfl

/-- Claim C9 (amended): for every call to `fit` and `predict`, the
configuration parameters set at construction — `gamma`, `teta_onl`,
`teta_agglo`, `bthres`, `simil`, `sing`, `oper`, the normalization flag
and the target range — are left unchanged; only `V`, `W`, `classId`,
`cardin`, the two hyperbox-count snapshots, the elapsed-time field,
`predicted_class` and the recorded normalization statistics `mins`/`maxs`
are written. Established by proving every field outside that write list
unchanged: `fit` preserves all configuration fields, the draw flag and
`predicted_class`; `predict` preserves every field other than
`predicted_class`. -/
theorem C9_config_frame (m : OnlineAggloGFMM) (sim : SimFn)
    (Xl Xu : List (List ℚ)) (pats : List ℤ) (t : ℤ) (m' : OnlineAggloGFMM)
    (XlT XuT : List (List ℚ)) (patT : List ℤ) (newVer : Bool)
    (h : fitE m sim Xl Xu pats t = Except.ok m') :
    (m'.gamma = m.gamma ∧ m'.teta_onl = m.teta_onl ∧
      m'.teta_agglo = m.teta_agglo ∧ m'.bthres = m.bthres ∧
      m'.simil = m.simil ∧ m'.sing = m.sing ∧ m'.oper = m.oper ∧
      m'.isNorm = m.isNorm ∧ m'.isDraw = m.isDraw ∧
      m'.loLim = m.loLim ∧ m'.hiLim = m.hiLim ∧
      m'.predicted_class = m.predicted_class) ∧
    ((predictE m XlT XuT patT newVer).1.gamma = m.gamma ∧
      (predictE m XlT XuT patT newVer).1.teta_onl = m.teta_onl ∧
      (predictE m XlT XuT patT newVer).1.teta_agglo = m.teta_agglo ∧
      (predictE m XlT XuT patT newVer).1.bthres = m.bthres ∧
      (predictE m XlT XuT patT newVer).1.simil = m.simil ∧
      (predictE m XlT XuT patT newVer).1.sing = m.sing ∧
      (predictE m XlT XuT patT newVer).1.oper = m.oper ∧
      (predictE m XlT XuT patT newVer).1.isNorm = m.isNorm ∧
      (predictE m XlT XuT patT newVer).1.isDraw = m.isDraw ∧
      (predictE m XlT XuT patT newVer).1.loLim = m.loLim ∧
      (predictE m XlT XuT patT newVer).1.hiLim = m.hiLim ∧
      (predictE m XlT XuT patT newVer).1.V = m.V ∧
      (predictE m XlT XuT patT newVer).1.W = m.W ∧
      (predictE m XlT XuT patT newVer).1.classId = m.classId ∧
      (predictE m XlT XuT patT newVer).1.cardin = m.cardin ∧
      (predictE m XlT XuT patT newVer).1.mins = m.mins ∧
      (predictE m XlT XuT patT newVer).1.maxs = m.maxs ∧
      (predictE m XlT XuT patT newVer).1.num_hyperbox_after_online =
        m.num_hyperbox_after_online ∧
      (predictE m XlT XuT patT newVer).1.num_hyperbox_after_agglo =
        m.num_hyperbox_after_agglo ∧
      (predictE m XlT XuT patT newVer).1.elapsed_time_recorded =
        m.elapsed_time_recorded) := by
  constructor
  · have hm := fitE_ok_inv m sim Xl Xu pats t m' h
    subst hm
    exact ⟨rfl, rfl, rfl, rfl, rfl, rfl, rfl, rfl, rfl, rfl, rfl, rfl⟩
  · by_cases hp : 0 < (predictFilter m XlT XuT).1.length
    · simp only [predictE, eq_true hp, if_true]
      repeat' apply And.intro
      all_goals trivial
    · simp only [predictE, eq_false hp, if_false]
      repeat' apply And.intro
      all_goals trivial

/-- Witness for C9 at a concrete training run and prediction call. -/
theorem C9_witness :
    (fitE Mplain simOne [[0], [1]] [[0], [1]] [1, 2] 1).toOption.map
        OnlineAggloGFMM.gamma = some Mplain.gamma ∧
      (fitE Mplain simOne [[0], [1]] [[0], [1]] [1, 2] 1).toOption.map
        OnlineAggloGFMM.predicted_class = some Mplain.predicted_class ∧
      (predictE Mplain [[0]] [[0]] [1] true).1.bthres = Mplain.bthres := by
  have hE := fitE_ok Mplain simOne [[0], [1]] [[0], [1]] [1, 2] 1
    (by decide) (by decide)
  have h9 := C9_config_frame Mplain simOne [[0], [1]] [[0], [1]] [1, 2] 1 _
    [[0]] [[0]] [1] true hE
  obtain ⟨⟨hg, -, -, -, -, -, -, -, -, -, -, hpc⟩, hpred⟩ := h9
  refine ⟨?_, ?_, hpred.2.2.2.1⟩
  · rw [hE]
    simp [Except.toOption, hg]
  · rw [hE]
    simp [Except.toOption, hpc]

/-! ## Claim C6 -/

/-- `zipWith` at an index where both operands are defined. -/
theorem zipWith_getElem?_some {α β γ : Type} (f : α → β → γ) {l₁ : List α}
    {l₂ : List β} {i : ℕ} {a : α} {b : β}
    (h₁ : l₁[i]? = some a) (h₂ : l₂[i]? = some b) :
    (List.zipWith f l₁ l₂)[i]? = some (f a b) := by
  rw [List.getElem?_zipWith, h₁, h₂]

/-- Entrywise form of the broadcast renormalization of lines 145–146: the
value at row `i`, dimension `d` is
`lo + (hi - lo) * (x - mins d) / (maxs d - mins d)`. -/
theorem normTestMat_entry (lo hi : ℚ) (mins maxs : List ℚ)
    (X : List (List ℚ)) (i d : ℕ) (row : List ℚ) (x mn mx : ℚ)
    (hrow : X[i]? = some row) (hx : row[d]? = some x)
    (hmn : mins[d]? = some mn) (hmx : maxs[d]? = some mx) :
    ∃ row', (normTestMat lo hi mins maxs X)[i]? = some row' ∧
      row'[d]? = some (lo + (hi - lo) * (x - mn) / (mx - mn)) := by
  have hi' : i < X.length := by
    rcases List.getElem?_eq_some.mp hrow with ⟨h, -⟩
    exact h
  have hrep1 : (List.replicate X.length mins)[i]? = some mins :=
    List.getElem?_replicate_of_lt hi'
  have hrep2 : (List.replicate X.length
      (List.zipWith (· - ·) maxs mins))[i]? =
      some (List.zipWith (· - ·) maxs mins) :=
    List.getElem?_replicate_of_lt hi'
  have h1 : (matSub X (matOnesMul X.length mins))[i]? =
      some (List.zipWith (· - ·) row mins) := by
    unfold matSub matOnesMul
    exact zipWith_getElem?_some _ hrow hrep1
  have h2 : (matScale (hi - lo) (matSub X (matOnesMul X.length mins)))[i]? =
      some (List.map (fun y => (hi - lo) * y) (List.zipWith (· - ·) row mins)) := by
    unfold matScale
    rw [List.getElem?_map, h1]
    rfl
  have h3 : (matDivM (matScale (hi - lo) (matSub X (matOnesMul X.length mins)))
      (matOnesMul X.length (List.zipWith (· - ·) maxs mins)))[i]? =
      some (List.zipWith (· / ·)
        (List.map (fun y => (hi - lo) * y) (List.zipWith (· - ·) row mins))
        (List.zipWith (· - ·) maxs mins)) := by
    unfold matDivM matOnesMul
    unfold matOnesMul at hrep2
    exact zipWith_getElem?_some _ h2 hrep2
  have h4 : (normTestMat lo hi mins maxs X)[i]? =
      some (List.map (fun y => lo + y) (List.zipWith (· / ·)
        (List.map (fun y => (hi - lo) * y) (List.zipWith (· - ·) row mins))
        (List.zipWith (· - ·) maxs mins))) := by
    unfold normTestMat matAddC
    rw [List.getElem?_map, h3]
    rfl
  refine ⟨_, h4, ?_⟩
  have h5 : (List.map (fun y => (hi - lo) * y)
      (List.zipWith (· - ·) row mins))[d]? = some ((hi - lo) * (x - mn)) := by
    rw [List.getElem?_map, zipWith_getElem?_some _ hx hmn]
    rfl
  rw [List.getElem?_map,
    zipWith_getElem?_some _ h5 (zipWith_getElem?_some _ hmx hmn)]
  rfl

/-- Claim C6: on a model whose training inputs were normalized, `predict`
rescales each test bound — lower and upper — with the exact linear
transform replayed from training,
`loLim + (hiLim - loLim) * (x - mins) / (maxs - mins)` per dimension with
the recorded `mins`/`maxs`, before any membership computation (here in the
case where no value falls out of range, so that rows keep their index). -/
theorem C6_replay_normalization (m : OnlineAggloGFMM)
    (XlT XuT : List (List ℚ)) (i d : ℕ) (rl ru : List ℚ) (xl xu mn mx : ℚ)
    (hmins : m.mins ≠ [])
    (hno : outOfRange m.loLim m.hiLim
      (normTestMat m.loLim m.hiLim m.mins m.maxs XlT)
      (normTestMat m.loLim m.hiLim m.mins m.maxs XuT) = false)
    (hrl : XlT[i]? = some rl) (hxl : rl[d]? = some xl)
    (hru : XuT[i]? = some ru) (hxu : ru[d]? = some xu)
    (hmn : m.mins[d]? = some mn) (hmx : m.maxs[d]? = some mx) :
    (∃ row', (predictFilter m XlT XuT).1[i]? = some row' ∧
      row'[d]? = some (m.loLim + (m.hiLim - m.loLim) * (xl - mn) / (mx - mn))) ∧
    (∃ row', (predictFilter m XlT XuT).2.1[i]? = some row' ∧
      row'[d]? = some (m.loLim + (m.hiLim - m.loLim) * (xu - mn) / (mx - mn))) := by
  have hfil : predictFilter m XlT XuT =
      (normTestMat m.loLim m.hiLim m.mins m.maxs XlT,
       normTestMat m.loLim m.hiLim m.mins m.maxs XuT, none) := by
    simp only [predictFilter, eq_true hmins, if_true, hno, Bool.false_eq_true,
      if_false]
  rw [hfil]
  exact ⟨normTestMat_entry m.loLim m.hiLim m.mins m.maxs XlT i d rl xl mn mx
      hrl hxl hmn hmx,
    normTestMat_entry m.loLim m.hiLim m.mins m.maxs XuT i d ru xu mn mx
      hru hxu hmn hmx⟩

/-- Witness for C6 at a concrete in-range test sample on `Mtest`. -/
theorem C6_witness :
    ((predictFilter Mtest [[(1:ℚ)/2]] [[(3:ℚ)/4]]).1[0]?.bind
      (fun row => row[0]?)) = some (Mtest.loLim +
        (Mtest.hiLim - Mtest.loLim) * ((1:ℚ)/2 - 0) / (1 - 0)) ∧
    ((predictFilter Mtest [[(1:ℚ)/2]] [[(3:ℚ)/4]]).2.1[0]?.bind
      (fun row => row[0]?)) = some (Mtest.loLim +
        (Mtest.hiLim - Mtest.loLim) * ((3:ℚ)/4 - 0) / (1 - 0)) := by
  obtain ⟨⟨rowl, hl1, hl2⟩, rowu, hu1, hu2⟩ :=
    C6_replay_normalization Mtest [[(1:ℚ)/2]] [[(3:ℚ)/4]] 0 0 [(1:ℚ)/2]
      [(3:ℚ)/4] ((1:ℚ)/2) ((3:ℚ)/4) 0 1 (by decide) (by with_unfolding_all rfl)
      rfl rfl rfl rfl rfl rfl
  rw [hl1, hu1]
  exact ⟨hl2, hu2⟩

/-! ## Claim C4 -/

/-- A trained model with two hyperboxes of distinct classes whose
memberships tie exactly at the sample `[1/2]`; the second class's box has
the larger cardinality (2 versus 5), so the cardinality rule must override
the positional first-winner default. -/
def Mtie : OnlineAggloGFMM :=
  { Mplain with
    V := [[0], [1/2]]
    W := [[1/2], [1]]
    classId := [1, 2]
    cardin := [2, 5] }

/-- Claim C4: when the top two per-class soft scores are exactly equal,
`predict` with `newVer = True` (via `predict_with_probability`) breaks the
tie in favor of the class whose best-matching hyperbox has the larger
cardinality — whichever of the two tied classes that is, in particular
overriding the positional order when the larger cardinality sits on the
second class — while `predict` with `newVer = False` uses the plain rule,
predicting the positionally first tied class regardless of cardinality and
counting the sample in `sumamb` as ambiguous. Stated for a single-sample
test set on a model trained without normalization statistics. -/
theorem C4_cardinality_tie_break (m : OnlineAggloGFMM) (xl xu : List ℚ)
    (pat : List ℤ) (c1 c2 : ℤ)
    (hmins : m.mins = [])
    (hcl : m.classId.dedup = [c1, c2])
    (hs : classScore m.gamma m.V m.W m.classId xl xu c1 =
      classScore m.gamma m.V m.W m.classId xl xu c2) :
    ((predictE m [xl] [xu] pat true).2.2).map PredictResult.predicted_class =
      some [if classBestCard m.gamma m.V m.W m.classId m.cardin xl xu c1 <
          classBestCard m.gamma m.V m.W m.classId m.cardin xl xu c2
        then c2 else c1] ∧
    ((predictE m [xl] [xu] pat false).2.2).map PredictResult.predicted_class =
      some [c1] ∧
    ((predictE m [xl] [xu] pat false).2.2).map PredictResult.sumamb = some 1 := by
  have hwin : winningClasses m.gamma m.V m.W m.classId xl xu = [c1, c2] := by
    simp [winningClasses, hcl, listMaxD, hs, max_self]
  have hpred : predictOneProb m.gamma m.V m.W m.classId m.cardin xl xu =
      (if classBestCard m.gamma m.V m.W m.classId m.cardin xl xu c1 <
          classBestCard m.gamma m.V m.W m.classId m.cardin xl xu c2
        then c2 else c1) := by
    by_cases hbc : classBestCard m.gamma m.V m.W m.classId m.cardin xl xu c1 <
        classBestCard m.gamma m.V m.W m.classId m.cardin xl xu c2
    · simp [predictOneProb, hwin, hbc]
    · simp [predictOneProb, hwin, hbc]
  have hfil : predictFilter m [xl] [xu] = ([xl], [xu], none) := by
    simp [predictFilter, hmins]
  have hp1 : (predictE m [xl] [xu] pat true).2.2 =
      some (predict_with_probability m.V m.W m.classId m.cardin [xl] [xu]
        pat m.gamma) := by
    simp [predictE, hfil]
  have hp2 : (predictE m [xl] [xu] pat false).2.2 =
      some (predictPlainFn m.V m.W m.classId [xl] [xu] pat m.gamma) := by
    simp [predictE, hfil]
  refine ⟨?_, ?_, ?_⟩
  · rw [hp1]
    simp [predict_with_probability, mkResult, hpred]
  · rw [hp2]
    simp [predictPlainFn, mkResult, predictOnePlain, hwin]
  · rw [hp2]
    simp [predictPlainFn, mkResult, predictOnePlain, hwin]

/-- Witness for C4 on `Mtie` at the tied sample `[1/2]`: the
cardinality-aware rule predicts class 2 (cardinality 5 beats 2, overriding
the positional first winner), while the plain rule predicts class 1 and
reports one ambiguous sample. -/
theorem C4_witness :
    ((predictE Mtie [[(1:ℚ)/2]] [[(1:ℚ)/2]] [1] true).2.2).map
      PredictResult.predicted_class = some [2] ∧
    ((predictE Mtie [[(1:ℚ)/2]] [[(1:ℚ)/2]] [1] false).2.2).map
      PredictResult.predicted_class = some [1] ∧
    ((predictE Mtie [[(1:ℚ)/2]] [[(1:ℚ)/2]] [1] false).2.2).map
      PredictResult.sumamb = some 1 := by
  have h := C4_cardinality_tie_break Mtie [(1:ℚ)/2] [(1:ℚ)/2] [1] 1 2 rfl
    (by decide) (by with_unfolding_all rfl)
  refine ⟨?_, h.2.1, h.2.2⟩
  rw [h.1]
  with_unfolding_all rfl

/-! ## Claim C3 -/

/-- `np.intersect1d` of two `np.where` index sets over the same row range
is the filter by the conjunction of the two row predicates. -/
theorem inter_filter_range (n : ℕ) (p q : ℕ → Bool) :
    ((List.range n).filter p).inter ((List.range n).filter q) =
      (List.range n).filter (fun i => p i && q i) := by
  show List.filter (fun a => List.elem a ((List.range n).filter q))
    ((List.range n).filter p) = _
  rw [List.filter_filter]
  apply List.filter_congr
  intro i hi
  simp [List.elem_eq_mem, List.mem_filter, hi, Bool.and_comm]

/-- Selecting rows at valid indices keeps one row per index. -/
theorem selRows_length (A : List (List ℚ)) (idx : List ℕ)
    (h : ∀ i ∈ idx, i < A.length) : (selRows A idx).length = idx.length := by
  induction idx with
  | nil => rfl
  | cons i is ih =>
      have hi : i < A.length := h i (List.mem_cons_self i is)
      have hrest : ∀ j ∈ is, j < A.length :=
        fun j hj => h j (List.mem_cons_of_mem i hj)
      show (List.filterMap (fun j => A[j]?) (i :: is)).length = (i :: is).length
      rw [List.filterMap_cons, List.getElem?_eq_getElem hi]
      simp only [List.length_cons]
      exact congrArg (· + 1) (ih hrest)

/-- The renormalization of lines 145–146 preserves the number of rows. -/
theorem normTestMat_length (lo hi : ℚ) (mins maxs : List ℚ)
    (X : List (List ℚ)) : (normTestMat lo hi mins maxs X).length = X.length := by
  simp [normTestMat, matAddC, matDivM, matScale, matSub, matOnesMul]

/-- Claim C3: on a model trained with normalization, when some renormalized
test value falls outside `[loLim, hiLim]`, `predict` (a) keeps exactly the
samples whose renormalized lower and upper bounds lie inside the range in
every dimension, (b) reports the original and kept sample counts, (c)
continues classification on exactly the kept samples (or skips it when
none remain), and (d) scores — predictions and the misclassification map —
only the kept samples, so excluded samples are never scored as
misclassifications. -/
theorem C3_out_of_range_exclusion (m : OnlineAggloGFMM)
    (XlT XuT : List (List ℚ)) (patT : List ℤ) (newVer : Bool)
    (hmins : m.mins ≠ [])
    (hlen : XuT.length = XlT.length)
    (htrig : outOfRange m.loLim m.hiLim
      (normTestMat m.loLim m.hiLim m.mins m.maxs XlT)
      (normTestMat m.loLim m.hiLim m.mins m.maxs XuT) = true) :
    let Xl' := normTestMat m.loLim m.hiLim m.mins m.maxs XlT
    let Xu' := normTestMat m.loLim m.hiLim m.mins m.maxs XuT
    let keep := indKeep m.loLim m.hiLim Xl' Xu'
    keep = (List.range XlT.length).filter (fun i =>
        rowInRange m.loLim m.hiLim (Xl'.getD i []) &&
        rowInRange m.loLim m.hiLim (Xu'.getD i [])) ∧
    (predictE m XlT XuT patT newVer).2.1 = some (XlT.length, keep.length) ∧
    (predictE m XlT XuT patT newVer).2.2 =
      (if 0 < keep.length then
        some (if newVer then
          predict_with_probability m.V m.W m.classId m.cardin
            (selRows Xl' keep) (selRows Xu' keep) patT m.gamma
        else
          predictPlainFn m.V m.W m.classId
            (selRows Xl' keep) (selRows Xu' keep) patT m.gamma)
      else none) ∧
    (∀ r, (predictE m XlT XuT patT newVer).2.2 = some r →
      r.predicted_class.length = keep.length ∧
      r.misclass.length = keep.length) := by
  intro Xl' Xu' keep
  have hXl : Xl'.length = XlT.length := normTestMat_length _ _ _ _ _
  have hXu : Xu'.length = XlT.length := by
    rw [normTestMat_length]
    exact hlen
  have hchar : keep = (List.range XlT.length).filter (fun i =>
      rowInRange m.loLim m.hiLim (Xl'.getD i []) &&
      rowInRange m.loLim m.hiLim (Xu'.getD i [])) := by
    show indKeep m.loLim m.hiLim Xl' Xu' = _
    unfold indKeep
    rw [hXl]
    exact inter_filter_range _ _ _
  have hbound : ∀ i ∈ keep, i < Xl'.length := by
    intro i hi0
    rw [hchar] at hi0
    rw [hXl]
    exact List.mem_range.mp (List.mem_filter.mp hi0).1
  have hboundu : ∀ i ∈ keep, i < Xu'.length := by
    intro i hi0
    rw [hXu]
    rw [← hXl]
    exact hbound i hi0
  have hkeepl : (selRows Xl' keep).length = keep.length :=
    selRows_length _ _ hbound
  have hkeepu : (selRows Xu' keep).length = keep.length :=
    selRows_length _ _ hboundu
  have hfil : predictFilter m XlT XuT =
      (selRows Xl' keep, selRows Xu' keep,
        some (XlT.length, (selRows Xl' keep).length)) := by
    simp only [predictFilter, eq_true hmins, if_true, htrig, if_true]
  have hrep : (predictE m XlT XuT patT newVer).2.1 =
      some (XlT.length, keep.length) := by
    by_cases hpos : 0 < (selRows Xl' keep).length
    · simp only [predictE, hfil, eq_true hpos, if_true]
      rw [hkeepl]
    · simp only [predictE, hfil, eq_false hpos, if_false]
      rw [hkeepl]
  have hcls : (predictE m XlT XuT patT newVer).2.2 =
      (if 0 < keep.length then
        some (if newVer then
          predict_with_probability m.V m.W m.classId m.cardin
            (selRows Xl' keep) (selRows Xu' keep) patT m.gamma
        else
          predictPlainFn m.V m.W m.classId
            (selRows Xl' keep) (selRows Xu' keep) patT m.gamma)
      else none) := by
    by_cases hpos : 0 < keep.length
    · have hpos' : 0 < (selRows Xl' keep).length := by
        rw [hkeepl]
        exact hpos
      simp only [predictE, hfil, eq_true hpos, eq_true hpos', if_true]
    · have hpos' : ¬ 0 < (selRows Xl' keep).length := by
        rw [hkeepl]
        exact hpos
      simp only [predictE, hfil, eq_false hpos, eq_false hpos', if_false]
  refine ⟨hchar, hrep, hcls, ?_⟩
  intro r hr
  rw [hcls] at hr
  by_cases hpos : 0 < keep.length
  · rw [if_pos hpos] at hr
    obtain rfl := (Option.some.inj hr).symm
    cases newVer
    · simp [predictPlainFn, mkResult, List.length_zip, hkeepl, hkeepu]
    · simp [predict_with_probability, mkResult, List.length_zip, hkeepl, hkeepu]
  · rw [if_neg hpos] at hr
    exact absurd hr (by simp)

/-- Witness for C3: of two test samples, the out-of-range one (index 0) is
excluded, the in-range one (index 1) is kept, and the console notice
reports 2 original and 1 kept samples. -/
theorem C3_witness :
    (predictE Mtest [[2], [(1:ℚ)/2]] [[2], [(1:ℚ)/2]] [1, 1] true).2.1 =
      some (2, (indKeep Mtest.loLim Mtest.hiLim
        (normTestMat Mtest.loLim Mtest.hiLim Mtest.mins Mtest.maxs
          [[2], [(1:ℚ)/2]])
        (normTestMat Mtest.loLim Mtest.hiLim Mtest.mins Mtest.maxs
          [[2], [(1:ℚ)/2]])).length) ∧
    indKeep Mtest.loLim Mtest.hiLim
      (normTestMat Mtest.loLim Mtest.hiLim Mtest.mins Mtest.maxs
        [[2], [(1:ℚ)/2]])
      (normTestMat Mtest.loLim Mtest.hiLim Mtest.mins Mtest.maxs
        [[2], [(1:ℚ)/2]]) = [1] := by
  have h := C3_out_of_range_exclusion Mtest [[2], [(1:ℚ)/2]] [[2], [(1:ℚ)/2]]
    [1, 1] true (by decide) rfl (by with_unfolding_all rfl)
  exact ⟨h.2.1, by with_unfolding_all rfl⟩

/-! ## Claim C10 -/

/-- Claim C10: when the out-of-range filter removes every test sample,
`predict` performs no classification, leaves the model (including
`predicted_class`) untouched, and returns `None` in place of a result
object, alongside the console notice reporting zero kept samples. -/
theorem C10_all_filtered_returns_none (m : OnlineAggloGFMM)
    (XlT XuT : List (List ℚ)) (patT : List ℤ) (newVer : Bool)
    (hmins : m.mins ≠ [])
    (htrig : outOfRange m.loLim m.hiLim
      (normTestMat m.loLim m.hiLim m.mins m.maxs XlT)
      (normTestMat m.loLim m.hiLim m.mins m.maxs XuT) = true)
    (hkeep : indKeep m.loLim m.hiLim
      (normTestMat m.loLim m.hiLim m.mins m.maxs XlT)
      (normTestMat m.loLim m.hiLim m.mins m.maxs XuT) = []) :
    predictE m XlT XuT patT newVer = (m, some (XlT.length, 0), none) := by
  simp [predictE, predictFilter, hmins, htrig, hkeep, selRows]

/-- Witness for C10 at a single fully out-of-range test sample. -/
theorem C10_witness :
    predictE Mtest [[2]] [[2]] [1] false = (Mtest, some (1, 0), none) := by
  refine C10_all_filtered_returns_none Mtest [[2]] [[2]] [1] false ?_ ?_ ?_
  · decide
  · with_unfolding_all rfl
  · with_unfolding_all rfl

end GFMM
